import Mathlib

/-!
Verification of the openrag incremental indexing pipeline.

This file gives a shallow embedding of the core of the repository:
`CodeProcessor.chunk_content`, `CodeProcessor.should_ignore`,
`CodeProcessor.is_code_file`, `CodeProcessor.detect_language`,
`CodeProcessor.process_file` (src/openrag/indexer/processor.py),
`CodeIndexerHandler.index_file` and the per-file body of
`FileWatcher.initial_index` (src/openrag/indexer/watcher.py),
`ChromaCollectionManager.delete_by_source` / `add_documents`
(src/openrag/chroma/manager.py) and
`OllamaEmbeddingFunction.__call__` (src/openrag/embeddings/ollama_embedding.py).

Strings are modelled as `List Char`.  The document store is modelled as a
list of chunk records; the external glob matcher (`fnmatch`) and the
gitignore matchers (library `gitignore_parser`) are abstract boolean
functions passed as parameters.  File reads are modelled as
`Except Unit (List Char)` where `Except.error ()` is a Unicode decode
failure (the `UnicodeDecodeError` branch of `process_file`).
-/

set_option maxRecDepth 100000

/-- Python `str.strip()` (whitespace from both ends), on `List Char`. -/
def pyStrip (l : List Char) : List Char :=
  ((l.dropWhile Char.isWhitespace).reverse.dropWhile Char.isWhitespace).reverse

/-- Python `content.rfind 0x27\n0x27 a b`: the largest index `i` with
`a ≤ i < b` and `content[i] = newline`, if any.  (`none` models `-1`.) -/
def rfindNl (content : List Char) (a b : Nat) : Option Nat :=
  ((List.range content.length).filter
    (fun i => decide (a ≤ i) && decide (i < b) && (content.getD i ' ' == '\n'))).getLast?

/-- The window end computed by one iteration of `chunk_content`:
`end = min(start + chunk_size, len(content))`, then, if `end < len(content)`,
snapped to just after the last newline in `[start, end)` when that newline
lies strictly after `start` (processor.py lines 203-212). -/
def snapEnd (cs : Nat) (content : List Char) (start : Nat) : Nat :=
  let e0 := min (start + cs) content.length
  if e0 < content.length then
    match rfindNl content start e0 with
    | some pos => if start < pos then pos + 1 else e0
    | none => e0
  else e0

/-- Cursor advance of `chunk_content`: `new_start = end - overlap`; if that
does not advance past `start`, force `start = end + 1`
(processor.py lines 221-228).  Natural subtraction agrees with the Python
integer computation here: a negative `end - overlap` and a truncated-to-0
one both take the forced branch. -/
def nextStart (ov e start : Nat) : Nat :=
  if e - ov ≤ start then e + 1 else e - ov

/-- The stripped slice `content[start:end].strip()` of one iteration. -/
def stepChunk (cs : Nat) (content : List Char) (start : Nat) : List Char :=
  pyStrip ((content.drop start).take (snapEnd cs content start - start))

/-- Chunk accumulation of one iteration: the stripped slice is appended iff
its length is strictly greater than 50 (processor.py line 217). -/
def stepAcc (cs : Nat) (content : List Char) (start : Nat)
    (acc : List (List Char)) : List (List Char) :=
  if 50 < (stepChunk cs content start).length then acc ++ [stepChunk cs content start]
  else acc

/-- Result of the `while` loop of `chunk_content`.  `exit` records how the
loop ended: 0 = normal exit (`start ≥ len(content)`), 1 = the
infinite-loop safety break (`start == last_start`), 2 = the iteration-count
safety break (`iteration > content_length`), 3 = out of fuel (no
counterpart in the code; the fuel is an artifact of the embedding). -/
structure LoopOut where
  chunks : List (List Char)
  iters : Nat
  exit : Nat
deriving DecidableEq

/-- The `while start < len(content)` loop of `chunk_content`
(processor.py lines 191-235), fuelled.  `lastStart` starts at `-1`. -/
def chunkLoop (cs ov : Nat) (content : List Char) :
    Nat → Nat → Int → Nat → List (List Char) → LoopOut
  | 0, _, _, iteration, acc => ⟨acc, iteration, 3⟩
  | fuel + 1, start, lastStart, iteration, acc =>
    if start < content.length then
      if (start : Int) = lastStart then ⟨acc, iteration, 1⟩
      else if content.length < iteration + 1 then
        ⟨stepAcc cs content start acc, iteration + 1, 2⟩
      else
        chunkLoop cs ov content fuel
          (nextStart ov (snapEnd cs content start) start)
          (start : Int) (iteration + 1) (stepAcc cs content start acc)
    else ⟨acc, iteration, 0⟩

/-- `CodeProcessor.chunk_content` (processor.py lines 176-242): run the
loop, then `return chunks if chunks else [content[:chunk_size]]`.  The fuel
`len(content) + 1` is sufficient: the cursor strictly advances every
iteration (proved below). -/
def chunk_content (cs ov : Nat) (content : List Char) : List (List Char) :=
  let out := chunkLoop cs ov content (content.length + 1) 0 (-1) 0 []
  if out.chunks.isEmpty then [content.take cs] else out.chunks

/-- The window end never falls before the cursor. -/
lemma start_le_snapEnd (cs : Nat) (content : List Char) (start : Nat)
    (h : start ≤ content.length) : start ≤ snapEnd cs content start := by
  unfold snapEnd
  simp only
  split
  · split
    · split <;> omega
    · omega
  · omega

/-- The cursor strictly advances whenever the window end is at or past it. -/
lemma lt_nextStart (ov e start : Nat) (h : start ≤ e) :
    start < nextStart ov e start := by
  unfold nextStart
  split <;> omega

/-- With a fuel exceeding the remaining distance, a cursor strictly larger
than the previous one, and an iteration count bounded by the cursor (and
by the content length), the loop always reaches the normal exit — neither
safety break fires and the fuel never runs out — after at most
`content.length` iterations. -/
lemma chunkLoop_exit_zero (cs ov : Nat) (content : List Char) :
    ∀ fuel start lastStart iteration acc,
      content.length - start < fuel →
      iteration ≤ start →
      iteration ≤ content.length →
      lastStart < (start : Int) →
      (chunkLoop cs ov content fuel start lastStart iteration acc).exit = 0
        ∧ (chunkLoop cs ov content fuel start lastStart iteration acc).iters
            ≤ content.length := by
  intro fuel
  induction fuel with
  | zero =>
    intro start lastStart iteration acc h1 _ _ _
    omega
  | succ n ih =>
    intro start lastStart iteration acc h1 h2 h2b h3
    simp only [chunkLoop]
    by_cases hs : start < content.length
    · rw [if_pos hs]
      have hne : ¬ ((start : Int) = lastStart) := by omega
      rw [if_neg hne]
      have hit : ¬ (content.length < iteration + 1) := by omega
      rw [if_neg hit]
      have he : start ≤ snapEnd cs content start :=
        start_le_snapEnd cs content start (Nat.le_of_lt hs)
      have hadv : start < nextStart ov (snapEnd cs content start) start :=
        lt_nextStart ov (snapEnd cs content start) start he
      apply ih
      · omega
      · omega
      · omega
      · exact_mod_cast hadv
    · rw [if_neg hs]
      exact ⟨rfl, h2b⟩

/-- Every chunk the loop appends beyond its initial accumulator has length
strictly greater than 50; so does everything it returns when the
accumulator does. -/
lemma chunkLoop_mem_length (cs ov : Nat) (content : List Char) :
    ∀ fuel start lastStart iteration acc,
      (∀ c ∈ acc, 50 < c.length) →
      ∀ c ∈ (chunkLoop cs ov content fuel start lastStart iteration acc).chunks,
        50 < c.length := by
  intro fuel
  induction fuel with
  | zero =>
    intro start lastStart iteration acc hacc c hc
    exact hacc c hc
  | succ n ih =>
    intro start lastStart iteration acc hacc c hc
    have hstep : ∀ c ∈ stepAcc cs content start acc, 50 < c.length := by
      intro c hc
      unfold stepAcc at hc
      split at hc
      · rcases List.mem_append.mp hc with h | h
        · exact hacc c h
        · rcases List.mem_singleton.mp h with rfl
          assumption
      · exact hacc c hc
    simp only [chunkLoop] at hc
    split at hc
    · split at hc
      · exact hacc c hc
      · split at hc
        · exact hstep c hc
        · exact ih _ _ _ _ hstep c hc
    · exact hacc c hc

/-- The configuration fields consumed by the indexing pipeline
(config.py, `OpenRAGConfig`). -/
structure Config where
  file_extensions : List (List Char)
  exclude_dirs : List (List Char)
  exclude_files : List (List Char)
  ignore_hidden : Bool
  chunk_size : Nat
  chunk_overlap : Nat
deriving DecidableEq

/-- The attributes of a `pathlib.Path` that the pipeline reads: `name`,
`suffix`, `is_file()`, the project-root-relative path
(`relative_to(project_root)`), the absolute path (`str(file_path)`, used by
the gitignore scope check) and the relative parent directory. -/
structure FileInfo where
  relPath : List Char
  name : List Char
  suffix : List Char
  absPath : List Char
  dir : List Char
  isFile : Bool
deriving DecidableEq

/-- The static extension-to-language table of
`CodeProcessor.detect_language` (processor.py lines 158-169). -/
def languageMap : List (List Char × List Char) :=
  [(".go".toList, "go".toList), (".js".toList, "javascript".toList),
   (".jsx".toList, "react".toList), (".ts".toList, "typescript".toList),
   (".tsx".toList, "react-typescript".toList), (".sql".toList, "sql".toList),
   (".py".toList, "python".toList), (".rb".toList, "ruby".toList),
   (".php".toList, "php".toList), (".java".toList, "java".toList),
   (".rs".toList, "rust".toList), (".cpp".toList, "cpp".toList),
   (".c".toList, "c".toList), (".h".toList, "c".toList),
   (".hpp".toList, "cpp".toList), (".cs".toList, "csharp".toList),
   (".swift".toList, "swift".toList), (".kt".toList, "kotlin".toList),
   (".r".toList, "r".toList), (".jl".toList, "julia".toList),
   (".yml".toList, "yaml".toList), (".yaml".toList, "yaml".toList),
   (".json".toList, "json".toList), (".toml".toList, "toml".toList),
   (".md".toList, "markdown".toList), (".html".toList, "html".toList),
   (".css".toList, "css".toList), (".scss".toList, "scss".toList),
   (".sh".toList, "bash".toList), (".bash".toList, "bash".toList),
   (".env".toList, "dotenv".toList), (".conf".toList, "config".toList),
   (".txt".toList, "text".toList)]

/-- `CodeProcessor.detect_language`: `language_map.get(ext, 0x27text0x27)`. -/
def detect_language (ext : List Char) : List Char :=
  match languageMap.lookup ext with
  | some l => l
  | none => "text".toList

/-- Python `str.lower()` on the suffix. -/
def lowerList (l : List Char) : List Char := l.map Char.toLower

/-- `CodeProcessor.is_code_file` (processor.py lines 137-151): a regular
file whose lowercased extension is in the configured allow-set. -/
def is_code_file (cfg : Config) (f : FileInfo) : Bool :=
  f.isFile && cfg.file_extensions.contains (lowerList f.suffix)

/-- Substring test on character lists (Python `in` on strings). -/
def containsSub (needle : List Char) : List Char → Bool
  | [] => needle.isEmpty
  | c :: t => needle.isPrefixOf (c :: t) || containsSub needle t

/-- Deny family 1 of `should_ignore` (processor.py lines 100-105): an
excluded directory name occurs as a path component, tested as
`"/{d}/" in "/{rel}/" or rel.startswith("{d}/")`. -/
def dirExcluded (cfg : Config) (rel : List Char) : Bool :=
  cfg.exclude_dirs.any
    (fun d => containsSub ('/' :: (d ++ ['/'])) ('/' :: (rel ++ ['/']))
      || (d ++ ['/']).isPrefixOf rel)

/-- Deny family 2 of `should_ignore` (processor.py lines 107-115): some
configured glob pattern `fnmatch`-matches the bare filename or the full
relative path.  `fnm name pat` abstracts `fnmatch.fnmatch(name, pat)`. -/
def fileExcluded (fnm : List Char → List Char → Bool) (cfg : Config)
    (f : FileInfo) : Bool :=
  cfg.exclude_files.any (fun p => fnm f.name p || fnm f.relPath p)

/-- Deny family 3 of `should_ignore` (processor.py lines 117-120): hidden
files (name starting with a dot) when `ignore_hidden` is configured. -/
def hiddenExcluded (cfg : Config) (f : FileInfo) : Bool :=
  cfg.ignore_hidden && ['.'].isPrefixOf f.name

/-- Deny family 4 of `should_ignore` (processor.py lines 122-132): some
loaded gitignore rule set whose base directory is a string-prefix of the
absolute path matches the path.  Each rule set is the pair of its base
directory and its abstract matcher. -/
def gitExcluded (rules : List (List Char × (List Char → Bool)))
    (f : FileInfo) : Bool :=
  rules.any (fun r => r.1.isPrefixOf f.absPath && r.2 f.absPath)

/-- `CodeProcessor.should_ignore` (processor.py lines 93-135): the four
deny families, evaluated in order with short-circuit; any match excludes. -/
def should_ignore (cfg : Config) (fnm : List Char → List Char → Bool)
    (rules : List (List Char × (List Char → Bool))) (f : FileInfo) : Bool :=
  dirExcluded cfg f.relPath || fileExcluded fnm cfg f
    || hiddenExcluded cfg f || gitExcluded rules f

/-- Metadata stored with every chunk (processor.py lines 283-295). -/
structure ChunkMeta where
  source : List Char
  filename : List Char
  extension : List Char
  language : List Char
  chunk_index : Nat
  total_chunks : Nat
  directory : List Char
deriving DecidableEq

/-- One document-store record: document text, metadata, and the stable id
`"{source}_{chunk_index}"`. -/
structure ChunkRec where
  document : List Char
  metadata : ChunkMeta
  id : List Char
deriving DecidableEq

/-- The record list built by `process_file` from a successfully read,
non-empty file (processor.py lines 276-296). -/
def chunkRecords (cfg : Config) (f : FileInfo) (content : List Char) :
    List ChunkRec :=
  let chunks := chunk_content cfg.chunk_size cfg.chunk_overlap content
  chunks.enum.map (fun p =>
    { document := p.2
      metadata :=
        { source := f.relPath
          filename := f.name
          extension := lowerList f.suffix
          language := detect_language (lowerList f.suffix)
          chunk_index := p.1
          total_chunks := chunks.length
          directory := f.dir }
      id := f.relPath ++ '_' :: (Nat.toDigits 10 p.1) })

/-- `CodeProcessor.process_file` (processor.py lines 244-319).  The read
result is passed in: `Except.error ()` is a `UnicodeDecodeError` (binary
file), which yields `none`; an empty-after-strip content also yields
`none`; otherwise the chunk records. -/
def process_file (cfg : Config) (f : FileInfo)
    (read : Except Unit (List Char)) : Option (List ChunkRec) :=
  match read with
  | Except.error _ => none
  | Except.ok content =>
    if pyStrip content = [] then none
    else some (chunkRecords cfg f content)

/-- The document store: the multiset of records, as a list. -/
abbrev Store := List ChunkRec

/-- `ChromaCollectionManager.delete_by_source` (manager.py lines 94-105):
fetch the ids whose metadata `source` equals the argument, delete them and
return how many there were; any store exception (`fail = true`) is caught
and `0` is returned with the store untouched. -/
def delete_by_source (fail : Bool) (src : List Char) (s : Store) :
    Store × Nat :=
  if fail then (s, 0)
  else
    (s.filter (fun r => !(r.metadata.source == src)),
     (s.filter (fun r => r.metadata.source == src)).length)

/-- `ChromaCollectionManager.add_documents` (manager.py lines 107-140):
the batched adds amount to appending all records to the collection. -/
def add_documents (recs : List ChunkRec) (s : Store) : Store :=
  s ++ recs

/-- The handler statistics dictionary (watcher.py line 23). -/
structure Stats where
  indexed : Nat
  errors : Nat
  deleted : Nat
  skipped : Nat
deriving DecidableEq

/-- `CodeIndexerHandler.index_file` (watcher.py lines 38-88).  Gates:
extension allow-list first, then the deny rules, each counting the file as
skipped.  A file yielding no chunks (decode failure or empty content)
returns with no store mutation and no statistics change.  Otherwise the
prior chunk set for the source is deleted (`delFail` models a store error
inside `delete_by_source`, which is swallowed there), the new records are
added, and `indexed` is incremented; a store error during the add
(`addFail`) is caught by the surrounding handler and counted as an
error, leaving the store with the prior chunk set already deleted. -/
def index_file (cfg : Config) (fnm : List Char → List Char → Bool)
    (rules : List (List Char × (List Char → Bool)))
    (delFail addFail : Bool) (f : FileInfo)
    (read : Except Unit (List Char)) (s : Store) (st : Stats) :
    Store × Stats :=
  if is_code_file cfg f = false then
    (s, { st with skipped := st.skipped + 1 })
  else if should_ignore cfg fnm rules f = true then
    (s, { st with skipped := st.skipped + 1 })
  else
    match process_file cfg f read with
    | none => (s, st)
    | some chunks =>
      if chunks.isEmpty then (s, st)
      else
        let s1 := (delete_by_source delFail f.relPath s).1
        if addFail then (s1, { st with errors := st.errors + 1 })
        else (add_documents chunks s1, { st with indexed := st.indexed + 1 })

/-- The per-file body of `FileWatcher.initial_index`
(watcher.py lines 204-240): the same two gates, then `process_file`, then
`add_documents` directly — no `delete_by_source` call and no update of
`handler.stats` (the statistics are returned unchanged); the final `Nat`
is this file's contribution to the `files_found` counter. -/
def initial_index_step (cfg : Config) (fnm : List Char → List Char → Bool)
    (rules : List (List Char × (List Char → Bool))) (f : FileInfo)
    (read : Except Unit (List Char)) (s : Store) (st : Stats) :
    Store × Stats × Nat :=
  if is_code_file cfg f = false then (s, st, 0)
  else if should_ignore cfg fnm rules f = true then (s, st, 0)
  else
    match process_file cfg f read with
    | none => (s, st, 0)
    | some chunks =>
      if chunks.isEmpty then (s, st, 0)
      else (add_documents chunks s, st, 1)

/-- `OllamaEmbeddingFunction.__call__`
(ollama_embedding.py lines 58-92).  `oracle` abstracts one successful
HTTP embedding call on the (possibly truncated) text; `none` is any
per-text failure (connection error, non-200 status, missing field), for
which the hardcoded 768-dimensional zero vector is substituted. -/
def ollamaEmbed (oracle : List Char → Option (List Float))
    (texts : List (List Char)) : List (List Float) :=
  texts.map (fun t =>
    let t2 := if 8000 < t.length then t.take 8000 else t
    match oracle t2 with
    | some e => e
    | none => List.replicate 768 (0.0 : Float))

/-- A concrete configuration: `.py` allowed, no deny rules, default
chunking 500/100, hidden files ignored. -/
def cfg0 : Config :=
  { file_extensions := [".py".toList]
    exclude_dirs := []
    exclude_files := []
    ignore_hidden := true
    chunk_size := 500
    chunk_overlap := 100 }

/-- A concrete file `a.py` at the project root. -/
def f0 : FileInfo :=
  { relPath := "a.py".toList
    name := "a.py".toList
    suffix := ".py".toList
    absPath := "/proj/a.py".toList
    dir := ".".toList
    isFile := true }

/-- Concrete content: sixty `a` characters (one chunk, length > 50). -/
def content0 : List Char := List.replicate 60 'a'

/-- A trivial glob matcher matching nothing. -/
def fnm0 : List Char → List Char → Bool := fun _ _ => false

/-- No gitignore rule sets. -/
def rules0 : List (List Char × (List Char → Bool)) := []

/-- All-zero statistics. -/
def stats0 : Stats := ⟨0, 0, 0, 0⟩

/-- A stale store record for source `a.py` with id `a.py_1`, as left over
from an earlier indexing with a larger chunk count. -/
def staleRec : ChunkRec :=
  { document := "old".toList
    metadata :=
      { source := "a.py".toList
        filename := "a.py".toList
        extension := ".py".toList
        language := "python".toList
        chunk_index := 1
        total_chunks := 2
        directory := ".".toList }
    id := "a.py_1".toList }

/-- Claim C2 fails on the code: for 250 repeated `a` characters with
`chunk_size = 100` and `overlap = 20` the chunk lengths are not
`[100, 100, 50]` (the cursor advances by `chunk_size - overlap = 80`, so
the third chunk spans `[160, 250)`). -/
theorem c2_spec_lengths_refuted :
    ¬ ((chunk_content 100 20 (List.replicate 250 'a')).map List.length
        = [100, 100, 50]) := by decide

/-- Claim C2 (amended): for 250 repeated `a` characters with
`chunk_size = 100`, `overlap = 20` (and the code's minimum-length
threshold 50, which is below 80), `chunk_content` returns exactly 3
chunks of lengths 100, 100 and 90, in that order. -/
theorem c2_chunk_lengths :
    (chunk_content 100 20 (List.replicate 250 'a')).map List.length
        = [100, 100, 90]
      ∧ (chunk_content 100 20 (List.replicate 250 'a')).length = 3 := by
  decide

/-- Claim C5: for every content and every configuration with
`overlap < chunk_size`, the `chunk_content` loop run on the embedding's
sufficient fuel reaches the normal exit (`start ≥ len(content)`): the
cursor always makes forward progress, neither of the code's safety breaks
fires, and at most `len(content)` iterations are performed. -/
theorem c5_chunk_loop_terminates (cs ov : Nat) (content : List Char)
    (_hov : ov < cs) :
    (chunkLoop cs ov content (content.length + 1) 0 (-1) 0 []).exit = 0
      ∧ (chunkLoop cs ov content (content.length + 1) 0 (-1) 0 []).iters
          ≤ content.length := by
  exact chunkLoop_exit_zero cs ov content (content.length + 1) 0 (-1) 0 []
    (by omega) (Nat.le_refl 0) (Nat.zero_le _) (by norm_num)

/-- Witness for C5 at `chunk_size = 2`, `overlap = 1`, content `abc`. -/
theorem c5_chunk_loop_terminates_witness :
    (chunkLoop 2 1 "abc".toList ("abc".toList.length + 1) 0 (-1) 0 []).exit
        = 0
      ∧ (chunkLoop 2 1 "abc".toList ("abc".toList.length + 1) 0 (-1) 0
          []).iters ≤ "abc".toList.length :=
  c5_chunk_loop_terminates 2 1 "abc".toList (by decide)

/-- Claim C8: a chunk is kept by the normal chunking loop only if its
trimmed length is strictly greater than 50; a 50-character content yields
no chunk from the loop while a 51-character one is kept. -/
theorem c8_min_length_threshold :
    (∀ cs ov content c,
        c ∈ (chunkLoop cs ov content (content.length + 1) 0 (-1) 0
          []).chunks → 50 < c.length)
      ∧ (chunkLoop 1000 0 (List.replicate 50 'a') 51 0 (-1) 0 []).chunks
          = []
      ∧ (chunkLoop 1000 0 (List.replicate 51 'a') 52 0 (-1) 0 []).chunks
          = [List.replicate 51 'a'] := by
  refine ⟨?_, by decide, by decide⟩
  intro cs ov content c hc
  exact chunkLoop_mem_length cs ov content (content.length + 1) 0 (-1) 0 []
    (by simp) c hc

/-- Witness for C8: the single chunk produced from 60 `a` characters is
longer than 50. -/
theorem c8_min_length_threshold_witness :
    50 < (List.replicate 60 'a').length :=
  c8_min_length_threshold.1 500 100 (List.replicate 60 'a')
    (List.replicate 60 'a') (by decide)

/-- Claim C10: whenever the loop keeps no chunk, `chunk_content` returns
exactly the raw untrimmed first `chunk_size` characters as a single
fallback chunk; empty input yields one empty chunk, whitespace-only input
yields one whitespace-only chunk; the empty-file guard lives in
`process_file`, which returns `none` on content that strips to empty. -/
theorem c10_fallback_chunk :
    (∀ cs ov content,
        (chunkLoop cs ov content (content.length + 1) 0 (-1) 0 []).chunks
            = [] →
        chunk_content cs ov content = [content.take cs])
      ∧ (∀ cs ov, chunk_content cs ov [] = [[]])
      ∧ chunk_content 500 100 (List.replicate 10 ' ')
          = [List.replicate 10 ' ']
      ∧ (∀ cfg f content, pyStrip content = [] →
          process_file cfg f (Except.ok content) = none) := by
  refine ⟨?_, ?_, by decide, ?_⟩
  · intro cs ov content h
    simp [chunk_content, h]
  · intro cs ov
    simp [chunk_content, chunkLoop]
  · intro cfg f content h
    simp [process_file, h]

/-- Witness for C10: the fallback on a 10-space content, and the
`process_file` guard on empty content. -/
theorem c10_fallback_chunk_witness :
    chunk_content 500 100 (List.replicate 10 ' ')
        = [(List.replicate 10 ' ').take 500]
      ∧ process_file cfg0 f0 (Except.ok []) = none :=
  ⟨c10_fallback_chunk.1 500 100 (List.replicate 10 ' ') (by decide),
   c10_fallback_chunk.2.2.2 cfg0 f0 [] (by decide)⟩

/-- Every record `process_file` builds carries the file's relative path as
its metadata `source`. -/
lemma process_file_source (cfg : Config) (f : FileInfo)
    (read : Except Unit (List Char)) (chunks : List ChunkRec)
    (hp : process_file cfg f read = some chunks) :
    ∀ r ∈ chunks, r.metadata.source = f.relPath := by
  cases read with
  | error e => simp [process_file] at hp
  | ok content =>
    simp only [process_file] at hp
    by_cases h : pyStrip content = []
    · simp [h] at hp
    · rw [if_neg h] at hp
      injection hp with hp
      subst hp
      intro r hr
      unfold chunkRecords at hr
      simp only [List.mem_map] at hr
      obtain ⟨p, _, rfl⟩ := hr
      rfl

/-- Deleting a source strips exactly the records carrying it, and is
absorbed by a second deletion of the same source. -/
lemma filter_out_idem (src : List Char) (s : Store) :
    (s.filter (fun r => !(r.metadata.source == src))).filter
        (fun r => !(r.metadata.source == src))
      = s.filter (fun r => !(r.metadata.source == src)) := by
  rw [List.filter_filter]
  simp

/-- Records all carrying the source are wiped by the source filter. -/
lemma filter_out_all (src : List Char) (l : List ChunkRec)
    (h : ∀ r ∈ l, r.metadata.source = src) :
    l.filter (fun r => !(r.metadata.source == src)) = [] := by
  rw [List.filter_eq_nil_iff]
  intro r hr
  simp [h r hr]

/-- Records all carrying the source are kept whole by the source match. -/
lemma filter_in_all (src : List Char) (l : List ChunkRec)
    (h : ∀ r ∈ l, r.metadata.source = src) :
    l.filter (fun r => r.metadata.source == src) = l := by
  rw [List.filter_eq_self]
  intro r hr
  simp [h r hr]

/-- On a file that passes both gates and yields chunks, `index_file`
deletes the prior chunk set for the source and appends the new records,
incrementing `indexed`. -/
lemma index_file_eq_main (cfg : Config)
    (fnm : List Char → List Char → Bool)
    (rules : List (List Char × (List Char → Bool))) (delFail : Bool)
    (f : FileInfo) (read : Except Unit (List Char)) (s : Store)
    (st : Stats) (chunks : List ChunkRec)
    (hc : is_code_file cfg f = true)
    (hi : should_ignore cfg fnm rules f = false)
    (hp : process_file cfg f read = some chunks)
    (he : chunks.isEmpty = false) :
    index_file cfg fnm rules delFail false f read s st
      = (add_documents chunks (delete_by_source delFail f.relPath s).1,
         { st with indexed := st.indexed + 1 }) := by
  simp [index_file, hc, hi, hp, he]

/-- Claim C3: re-indexing the same unchanged file is idempotent on the
store — the second `index_file` call regenerates the identical record
set, deletes the old one and adds the identical new one, leaving the
store exactly as after the first call; moreover, after an indexing call
that stored chunks, the records carrying that source are exactly the new
chunk set, so no stale chunk from a previous chunk count survives. -/
theorem c3_reindex_idempotent (cfg : Config)
    (fnm : List Char → List Char → Bool)
    (rules : List (List Char × (List Char → Bool))) (f : FileInfo)
    (read : Except Unit (List Char)) (s : Store) (st st2 : Stats) :
    (index_file cfg fnm rules false false f read
        (index_file cfg fnm rules false false f read s st).1 st2).1
      = (index_file cfg fnm rules false false f read s st).1
    ∧ (∀ chunks, is_code_file cfg f = true →
        should_ignore cfg fnm rules f = false →
        process_file cfg f read = some chunks → chunks ≠ [] →
        ((index_file cfg fnm rules false false f read s st).1).filter
            (fun r => r.metadata.source == f.relPath) = chunks) := by
  constructor
  · by_cases hc : is_code_file cfg f = false
    · simp [index_file, hc]
    · by_cases hi : should_ignore cfg fnm rules f = true
      · simp [index_file, hc, hi]
      · rw [Bool.not_eq_false] at hc
        rw [Bool.not_eq_true] at hi
        cases hp : process_file cfg f read with
        | none => simp [index_file, hc, hi, hp]
        | some chunks =>
          cases he : chunks.isEmpty with
          | true => simp [index_file, hc, hi, hp, he]
          | false =>
            have hsrc := process_file_source cfg f read chunks hp
            rw [index_file_eq_main cfg fnm rules false f read s st chunks
                hc hi hp he,
              index_file_eq_main cfg fnm rules false f read _ st2 chunks
                hc hi hp he]
            simp only [delete_by_source, add_documents, if_neg,
              Bool.false_eq_true, if_false]
            rw [List.filter_append, filter_out_idem,
              filter_out_all f.relPath chunks hsrc, List.append_nil]
  · intro chunks hc hi hp hne
    have hsrc := process_file_source cfg f read chunks hp
    have he : chunks.isEmpty = false := by
      cases chunks with
      | nil => exact absurd rfl hne
      | cons a l => rfl
    rw [index_file_eq_main cfg fnm rules false f read s st chunks
        hc hi hp he]
    simp only [delete_by_source, add_documents, if_neg,
      Bool.false_eq_true, if_false]
    rw [List.filter_append, filter_in_all f.relPath chunks hsrc]
    have hnil : (s.filter
        (fun r => !(r.metadata.source == f.relPath))).filter
        (fun r => r.metadata.source == f.relPath) = [] := by
      rw [List.filter_eq_nil_iff]
      intro r hr
      have := List.of_mem_filter hr
      simpa using this
    rw [hnil, List.nil_append]

/-- Witness for C3: re-indexing `a.py` on a store already holding its
freshly indexed chunk set leaves the store unchanged, and the records for
source `a.py` are exactly the regenerated chunk records. -/
theorem c3_reindex_idempotent_witness :
    (index_file cfg0 fnm0 rules0 false false f0 (Except.ok content0)
        (index_file cfg0 fnm0 rules0 false false f0 (Except.ok content0)
          [staleRec] stats0).1 stats0).1
      = (index_file cfg0 fnm0 rules0 false false f0 (Except.ok content0)
          [staleRec] stats0).1
    ∧ ((index_file cfg0 fnm0 rules0 false false f0 (Except.ok content0)
          [staleRec] stats0).1).filter
          (fun r => r.metadata.source == f0.relPath)
        = chunkRecords cfg0 f0 content0 :=
  ⟨(c3_reindex_idempotent cfg0 fnm0 rules0 f0 (Except.ok content0)
      [staleRec] stats0 stats0).1,
   (c3_reindex_idempotent cfg0 fnm0 rules0 f0 (Except.ok content0)
      [staleRec] stats0 stats0).2 (chunkRecords cfg0 f0 content0)
      (by decide) (by decide) (by decide) (by decide)⟩

/-- A configuration allowing no extension at all. -/
def cfg1 : Config := { cfg0 with file_extensions := [] }

/-- Claim C4: the extension allow-list is the first gate — a path whose
extension is not in the configured set is skipped with no store mutation,
whatever the exclusion rules — and the deny families are evaluated in the
fixed order directories, file globs (against both bare filename and full
relative path), hidden rule, gitignore rules, with short-circuiting: an
earlier family's match makes the verdict independent of all later
matchers, and a match by any family excludes the path. -/
theorem c4_gate_order :
    (∀ cfg fnm rules delFail addFail f read s st,
        is_code_file cfg f = false →
        index_file cfg fnm rules delFail addFail f read s st
          = (s, { st with skipped := st.skipped + 1 }))
    ∧ (∀ cfg fnm rules f,
        should_ignore cfg fnm rules f = true
          ↔ (dirExcluded cfg f.relPath = true
              ∨ fileExcluded fnm cfg f = true
              ∨ hiddenExcluded cfg f = true
              ∨ gitExcluded rules f = true))
    ∧ (∀ cfg f fnm fnm2 rules rules2,
        dirExcluded cfg f.relPath = true →
        should_ignore cfg fnm rules f = should_ignore cfg fnm2 rules2 f)
    ∧ (∀ cfg f fnm rules rules2,
        fileExcluded fnm cfg f = true →
        should_ignore cfg fnm rules f = should_ignore cfg fnm rules2 f)
    ∧ (∀ fnm cfg f,
        fileExcluded fnm cfg f = true
          ↔ ∃ p ∈ cfg.exclude_files,
              fnm f.name p = true ∨ fnm f.relPath p = true) := by
  refine ⟨?_, ?_, ?_, ?_, ?_⟩
  · intro cfg fnm rules delFail addFail f read s st h
    simp [index_file, h]
  · intro cfg fnm rules f
    simp [should_ignore, Bool.or_eq_true, or_assoc]
  · intro cfg f fnm fnm2 rules rules2 h
    simp [should_ignore, h]
  · intro cfg f fnm rules rules2 h
    simp [should_ignore, h]
  · intro fnm cfg f
    simp [fileExcluded, List.any_eq_true, Bool.or_eq_true]

/-- Witness for C4: with an empty extension allow-list, `a.py` is skipped
and the store is untouched even though no exclusion rule matches it. -/
theorem c4_gate_order_witness :
    index_file cfg1 fnm0 rules0 false false f0 (Except.ok content0)
        [] stats0
      = ([], (⟨0, 0, 0, 1⟩ : Stats)) :=
  c4_gate_order.1 cfg1 fnm0 rules0 false false f0 (Except.ok content0)
    [] stats0 (by decide)

/-- Claim C6 fails on the code: on a Unicode decode failure, `index_file`
returns without touching the skipped counter (the skipped counter is only
incremented by the two gates), while the claim says it is incremented. -/
theorem c6_decode_skip_refuted :
    index_file cfg0 fnm0 rules0 false false f0 (Except.error ())
        [staleRec] stats0
      = ([staleRec], stats0)
    ∧ ¬ ((index_file cfg0 fnm0 rules0 false false f0 (Except.error ())
          [staleRec] stats0).2.skipped = stats0.skipped + 1) := by
  decide

/-- Claim C6 (amended): when a file that passes both gates cannot be
decoded as text, `index_file` performs no store mutation, counts no
error, and leaves the statistics entirely unchanged — in particular the
skipped counter is not incremented. -/
theorem c6_decode_failure_silent (cfg : Config)
    (fnm : List Char → List Char → Bool)
    (rules : List (List Char × (List Char → Bool)))
    (delFail addFail : Bool) (f : FileInfo) (s : Store) (st : Stats)
    (hc : is_code_file cfg f = true)
    (hi : should_ignore cfg fnm rules f = false) :
    index_file cfg fnm rules delFail addFail f (Except.error ()) s st
      = (s, st) := by
  simp [index_file, hc, hi, process_file]

/-- Witness for C6 at the concrete `a.py` and a store holding a stale
record. -/
theorem c6_decode_failure_silent_witness :
    index_file cfg0 fnm0 rules0 false false f0 (Except.error ())
        [staleRec] stats0
      = ([staleRec], stats0) :=
  c6_decode_failure_silent cfg0 fnm0 rules0 false false f0 [staleRec]
    stats0 (by decide) (by decide)

/-- Claim C7: the Ollama embedding call returns one embedding per input
text — a per-text failure never fails the whole batch — and a failed text
gets the zero-vector fallback of the backend's fixed dimension 768. -/
theorem c7_embedding_fallback
    (oracle : List Char → Option (List Float))
    (texts : List (List Char)) :
    (ollamaEmbed oracle texts).length = texts.length
    ∧ (∀ (i : Nat) (t : List Char), texts[i]? = some t →
        oracle (if 8000 < t.length then t.take 8000 else t) = none →
        (ollamaEmbed oracle texts)[i]?
          = some (List.replicate 768 (0.0 : Float))) := by
  constructor
  · simp [ollamaEmbed]
  · intro i t ht ho
    simp only [ollamaEmbed, List.getElem?_map, ht, Option.map_some']
    simp [ho]

/-- Witness for C7: an always-failing oracle on a one-text batch. -/
theorem c7_embedding_fallback_witness :
    (ollamaEmbed (fun _ => none) ["x".toList]).length = 1
    ∧ (ollamaEmbed (fun _ => none) ["x".toList])[0]?
        = some (List.replicate 768 (0.0 : Float)) :=
  ⟨(c7_embedding_fallback (fun _ => none) ["x".toList]).1,
   (c7_embedding_fallback (fun _ => none) ["x".toList]).2 0 "x".toList
     rfl rfl⟩

/-- Claim C9: `delete_by_source` swallows store errors, returning 0 with
the store untouched exactly as for an empty prior set (the two are
indistinguishable to the caller), and `index_file` proceeds to add the
new chunk set even when the deletion of the prior chunk set failed. -/
theorem c9_delete_error_swallowed :
    (∀ src s, delete_by_source true src s = (s, 0))
    ∧ (∀ src s, (∀ r ∈ s, ¬ (r.metadata.source = src)) →
        delete_by_source false src s = (s, 0))
    ∧ (∀ cfg fnm rules f read s st chunks,
        is_code_file cfg f = true →
        should_ignore cfg fnm rules f = false →
        process_file cfg f read = some chunks → chunks ≠ [] →
        index_file cfg fnm rules true false f read s st
          = (s ++ chunks, { st with indexed := st.indexed + 1 })) := by
  refine ⟨?_, ?_, ?_⟩
  · intro src s
    simp [delete_by_source]
  · intro src s h
    have h1 : s.filter (fun r => !(r.metadata.source == src)) = s := by
      rw [List.filter_eq_self]
      intro r hr
      simp [h r hr]
    have h2 : s.filter (fun r => r.metadata.source == src) = [] := by
      rw [List.filter_eq_nil_iff]
      intro r hr
      simp [h r hr]
    simp [delete_by_source, h1, h2]
  · intro cfg fnm rules f read s st chunks hc hi hp hne
    have he : chunks.isEmpty = false := by
      cases chunks with
      | nil => exact absurd rfl hne
      | cons a l => rfl
    rw [index_file_eq_main cfg fnm rules true f read s st chunks
        hc hi hp he]
    simp [delete_by_source, add_documents]

/-- Witness for C9: with a failing delete, indexing `a.py` appends the
new chunk set after the stale record instead of replacing it. -/
theorem c9_delete_error_swallowed_witness :
    index_file cfg0 fnm0 rules0 true false f0 (Except.ok content0)
        [staleRec] stats0
      = ([staleRec] ++ chunkRecords cfg0 f0 content0,
         (⟨1, 0, 0, 0⟩ : Stats)) :=
  c9_delete_error_swallowed.2.2 cfg0 fnm0 rules0 f0 (Except.ok content0)
    [staleRec] stats0 (chunkRecords cfg0 f0 content0)
    (by decide) (by decide) (by decide) (by decide)

/-- Claim C1 fails on the code: on the same file, same content and same
prior store, the per-file body of `initial_index` produces a different
store than `index_file` (it adds the new chunks without first deleting
the prior chunk set, so the stale record survives) and leaves the handler
statistics untouched where `index_file` increments `indexed` (the repo's
own `test_initial_index` asserts `stats["indexed"] > 0` after
`initial_index`). -/
theorem c1_initial_index_diverges :
    ¬ ((initial_index_step cfg0 fnm0 rules0 f0 (Except.ok content0)
          [staleRec] stats0).1
        = (index_file cfg0 fnm0 rules0 false false f0 (Except.ok content0)
            [staleRec] stats0).1)
    ∧ (initial_index_step cfg0 fnm0 rules0 f0 (Except.ok content0)
        [staleRec] stats0).2.1 = stats0
    ∧ (index_file cfg0 fnm0 rules0 false false f0 (Except.ok content0)
        [staleRec] stats0).2
      = (⟨1, 0, 0, 0⟩ : Stats) := by
  decide
